import Mathlib

/-!
Verification of the scheduling and work-order lifecycle engine of the
idims field-service platform.

The authoritative engine code in the repository is the SQL layer:
the schema with its triggers (`update_invoice_balance`,
`adjust_inventory_on_work_order_complete`) and the stored procedure
`complete_work_order`.  Those are embedded here as pure functions over an
explicit database state.  Operations whose server-side implementation is
not part of the repository snapshot (the booking coordinator, conflict
detector and quote-conversion pipeline, which the frontend only calls
through its REST wrappers) are modelled from the specification and are
marked as such in their doc comments.

Monetary amounts (NUMERIC columns) are modelled as integers in the
smallest currency unit; timestamps as integers (minutes).
-/

namespace Idims

/-- Work-order status values, from the CHECK constraint on
`work_orders.status`. -/
inductive WOStatus
  | pending
  | scheduled
  | in_progress
  | on_hold
  | completed
  | cancelled
deriving DecidableEq, Repr

/-- Inventory transaction types, from the CHECK constraint on
`inventory_transactions.transaction_type`.  The SQL value `'return'` is a
Lean keyword and is rendered `itemReturn`. -/
inductive TxType
  | purchase
  | sale
  | adjustment
  | itemReturn
deriving DecidableEq, Repr

/-- A row of `work_orders` (columns relevant to the lifecycle engine). -/
structure WorkOrderRow where
  id : Nat
  status : WOStatus
  scheduled_start : Option Int
  scheduled_end : Option Int
  actual_end : Option Int
  assigned_technician_id : Option Nat
deriving DecidableEq, Repr

/-- A row of `work_order_items` (a work order's inventory line items). -/
structure WorkOrderItemRow where
  id : Nat
  work_order_id : Nat
  inventory_item_id : Nat
  quantity : Int
deriving DecidableEq, Repr

/-- A row of `work_order_notes`. -/
structure WorkOrderNoteRow where
  id : Nat
  work_order_id : Nat
  note : String
deriving DecidableEq, Repr

/-- A row of `work_order_status_history`. -/
structure StatusHistoryRow where
  work_order_id : Nat
  previous_status : Option WOStatus
  new_status : WOStatus
  changed_by : Option Nat
  notes : Option String
deriving DecidableEq, Repr

/-- A row of `inventory_items` (columns relevant to stock keeping).
`quantity_in_stock INTEGER NOT NULL DEFAULT 0` carries no non-negativity
CHECK in the schema, so it is a plain integer here. -/
structure InventoryItemRow where
  id : Nat
  quantity_in_stock : Int
  reorder_threshold : Int
deriving DecidableEq, Repr

/-- A row of `inventory_transactions`. -/
structure InventoryTransactionRow where
  item_id : Nat
  transaction_type : TxType
  quantity : Int
  reference_id : Option Nat
  reference_type : Option String
  created_by : Option Nat
deriving DecidableEq, Repr

/-- A row of `invoices` (columns relevant to balance maintenance). -/
structure InvoiceRow where
  id : Nat
  total_amount : Int
  amount_paid : Int
  balance : Int
deriving DecidableEq, Repr

/-- The database state: the tables touched by the lifecycle engine. -/
structure DB where
  work_orders : List WorkOrderRow
  work_order_items : List WorkOrderItemRow
  work_order_notes : List WorkOrderNoteRow
  work_order_status_history : List StatusHistoryRow
  inventory_items : List InventoryItemRow
  inventory_transactions : List InventoryTransactionRow
  invoices : List InvoiceRow
deriving DecidableEq, Repr

/-! ## Invoice balance trigger

```
CREATE OR REPLACE FUNCTION update_invoice_balance() RETURNS TRIGGER AS
BEGIN
    NEW.balance = NEW.total_amount - NEW.amount_paid;
    RETURN NEW;
END;

CREATE TRIGGER update_invoice_balance_trigger
BEFORE INSERT OR UPDATE ON invoices
FOR EACH ROW EXECUTE FUNCTION update_invoice_balance();
```
-/

/-- The BEFORE INSERT OR UPDATE trigger body on `invoices`. -/
def update_invoice_balance (new : InvoiceRow) : InvoiceRow :=
  { new with balance := new.total_amount - new.amount_paid }

/-- INSERT INTO invoices: the BEFORE trigger rewrites the incoming row. -/
def invoices_insert (db : DB) (row : InvoiceRow) : DB :=
  { db with invoices := db.invoices ++ [update_invoice_balance row] }

/-- UPDATE invoices ... WHERE id = invId: the BEFORE trigger rewrites each
updated row before it is stored. -/
def invoices_update (db : DB) (invId : Nat) (f : InvoiceRow → InvoiceRow) : DB :=
  { db with invoices :=
      db.invoices.map (fun r =>
        if r.id = invId then update_invoice_balance (f r) else r) }

/-- The balance invariant of §3 of the specification. -/
def balanceInv (r : InvoiceRow) : Prop :=
  r.balance = r.total_amount - r.amount_paid

instance (r : InvoiceRow) : Decidable (balanceInv r) := by
  unfold balanceInv; infer_instance

/-- C2: After every insert or update of an invoice row the stored balance
equals `total_amount - amount_paid`; the balance is never mutated
independently of this rule, so any caller-supplied balance value is
overwritten by the recomputation. -/
theorem C2_invoice_balance_recomputed :
    (∀ row : InvoiceRow, (update_invoice_balance row).balance =
        row.total_amount - row.amount_paid) ∧
    (∀ (row : InvoiceRow) (b : Int),
        update_invoice_balance { row with balance := b } =
        update_invoice_balance row) ∧
    (∀ (db : DB) (row : InvoiceRow),
        (∀ r ∈ db.invoices, balanceInv r) →
        ∀ r ∈ (invoices_insert db row).invoices, balanceInv r) ∧
    (∀ (db : DB) (invId : Nat) (f : InvoiceRow → InvoiceRow),
        (∀ r ∈ db.invoices, balanceInv r) →
        ∀ r ∈ (invoices_update db invId f).invoices, balanceInv r) := by
  refine ⟨fun row => rfl, fun row b => rfl, ?_, ?_⟩
  · intro db row hdb r hr
    simp only [invoices_insert, List.mem_append, List.mem_singleton] at hr
    rcases hr with hr | hr
    · exact hdb r hr
    · subst hr; rfl
  · intro db invId f hdb r hr
    simp only [invoices_update, List.mem_map] at hr
    obtain ⟨r0, hr0, hrepl⟩ := hr
    by_cases hid : r0.id = invId
    · simp only [hid, if_pos rfl] at hrepl
      subst hrepl; rfl
    · simp only [if_neg hid] at hrepl
      subst hrepl; exact hdb r0 hr0

/-- Witness for C2 at a concrete database: one invoice with a bogus
caller-supplied balance is inserted, and the stored row satisfies the
invariant. -/
theorem C2_invoice_balance_recomputed_witness :
    balanceInv (update_invoice_balance ⟨1, 500, 200, 999⟩) :=
  C2_invoice_balance_recomputed.2.2.1
    ⟨[], [], [], [], [], [], []⟩ ⟨1, 500, 200, 999⟩
    (by intro r hr; simp at hr)
    (update_invoice_balance ⟨1, 500, 200, 999⟩) (by simp [invoices_insert])

/-! ## Inventory deduction trigger

```
CREATE OR REPLACE FUNCTION adjust_inventory_on_work_order_complete()
RETURNS TRIGGER AS
BEGIN
    IF NEW.status = 'completed' AND OLD.status != 'completed' THEN
        INSERT INTO inventory_transactions (item_id, transaction_type,
            quantity, reference_id, reference_type, created_by)
        SELECT woi.inventory_item_id, 'sale', -woi.quantity, NEW.id,
            'work_order', NEW.assigned_technician_id
        FROM work_order_items woi WHERE woi.work_order_id = NEW.id;

        UPDATE inventory_items ii
        SET quantity_in_stock = ii.quantity_in_stock - woi.quantity
        FROM work_order_items woi
        WHERE woi.work_order_id = NEW.id AND ii.id = woi.inventory_item_id;
    END IF;
    RETURN NEW;
END;

CREATE TRIGGER work_order_complete_inventory_trigger
AFTER UPDATE ON work_orders
FOR EACH ROW EXECUTE FUNCTION adjust_inventory_on_work_order_complete();
```
-/

/-- The 'sale' ledger row the trigger's INSERT ... SELECT produces for one
line item of the completed work order. -/
def saleTx (new : WorkOrderRow) (woi : WorkOrderItemRow) : InventoryTransactionRow :=
  { item_id := woi.inventory_item_id
    transaction_type := TxType.sale
    quantity := -woi.quantity
    reference_id := some new.id
    reference_type := some "work_order"
    created_by := new.assigned_technician_id }

/-- The AFTER UPDATE trigger body on `work_orders`.  `old`/`new` are the
row images; the UPDATE ... FROM join applies, for each inventory row, the
first matching line item (PostgreSQL applies one arbitrary matching join
row per target row). -/
def adjust_inventory_on_work_order_complete (db : DB)
    (old new : WorkOrderRow) : DB :=
  if new.status = WOStatus.completed ∧ old.status ≠ WOStatus.completed then
    let lineItems :=
      db.work_order_items.filter (fun woi => woi.work_order_id = new.id)
    { db with
      inventory_transactions :=
        db.inventory_transactions ++ lineItems.map (saleTx new)
      inventory_items :=
        db.inventory_items.map (fun ii =>
          match lineItems.find? (fun woi => woi.inventory_item_id = ii.id) with
          | some woi =>
              { ii with quantity_in_stock := ii.quantity_in_stock - woi.quantity }
          | none => ii) }
  else db

/-- UPDATE work_orders SET ... WHERE id = woId, firing the AFTER UPDATE
trigger on the updated row.  `id` is the primary key, so at most one row
matches; if none does, the statement is a no-op. -/
def work_orders_update (db : DB) (woId : Nat)
    (f : WorkOrderRow → WorkOrderRow) : DB :=
  match db.work_orders.find? (fun w => w.id = woId) with
  | none => db
  | some old =>
      let db1 : DB :=
        { db with work_orders :=
            db.work_orders.map (fun w => if w.id = woId then f w else w) }
      adjust_inventory_on_work_order_complete db1 old (f old)

/-- A plain status update `UPDATE work_orders SET status = ns WHERE id = woId`
(the PUT /work-orders/id/status path ends in such an update). -/
def updateWorkOrderStatus (db : DB) (woId : Nat) (ns : WOStatus) : DB :=
  work_orders_update db woId (fun w => { w with status := ns })

/-- C1: Inventory deduction happens exactly once, exactly on the status
transition into `completed`.  An update whose new status is `completed`
while the old status was already `completed` performs no deduction and
creates no transaction rows, and no update to a status other than
`completed` performs any deduction; the transition from a non-completed
status into `completed` appends exactly one 'sale' transaction per
inventory line item of the work order and decrements each referenced
item's `quantity_in_stock`. -/
theorem C1_deduction_exactly_once_on_completion :
    ∀ (db : DB) (woId : Nat) (ns : WOStatus) (old : WorkOrderRow),
    db.work_orders.find? (fun w => w.id = woId) = some old →
    ((¬ (ns = WOStatus.completed ∧ old.status ≠ WOStatus.completed)) →
        (updateWorkOrderStatus db woId ns).inventory_items =
          db.inventory_items ∧
        (updateWorkOrderStatus db woId ns).inventory_transactions =
          db.inventory_transactions) ∧
    ((ns = WOStatus.completed ∧ old.status ≠ WOStatus.completed) →
        (updateWorkOrderStatus db woId ns).inventory_transactions =
          db.inventory_transactions ++
            (db.work_order_items.filter
                (fun woi => woi.work_order_id = woId)).map
              (saleTx { old with status := ns }) ∧
        ∀ ii ∈ db.inventory_items,
          match (db.work_order_items.filter
              (fun woi => woi.work_order_id = woId)).find?
              (fun woi => woi.inventory_item_id = ii.id) with
          | some woi =>
              { ii with quantity_in_stock := ii.quantity_in_stock - woi.quantity }
                ∈ (updateWorkOrderStatus db woId ns).inventory_items
          | none => ii ∈ (updateWorkOrderStatus db woId ns).inventory_items) := by
  intro db woId ns old hfind
  have hid : old.id = woId := by
    have hp := List.find?_some hfind
    simpa using hp
  constructor
  · intro hnot
    unfold updateWorkOrderStatus work_orders_update
    rw [hfind]
    simp only
    unfold adjust_inventory_on_work_order_complete
    rw [if_neg]
    · exact ⟨rfl, rfl⟩
    · simpa using hnot
  · intro hyes
    unfold updateWorkOrderStatus work_orders_update
    rw [hfind]
    simp only
    unfold adjust_inventory_on_work_order_complete
    rw [if_pos]
    swap
    · simpa using hyes
    constructor
    · simp only [hid]
    · intro ii hii
      simp only [hid]
      cases hf : (db.work_order_items.filter
          (fun woi => woi.work_order_id = woId)).find?
          (fun woi => woi.inventory_item_id = ii.id) with
      | none =>
          refine List.mem_map.mpr ⟨ii, hii, ?_⟩
          simp only [hid, hf]
      | some woi =>
          refine List.mem_map.mpr ⟨ii, hii, ?_⟩
          simp only [hid, hf]

/-- Witness for C1 at a concrete database: work order 10 (in progress,
one line item of 2 units of item 1, stock 10) is completed once — stock
drops to 8 and one sale row appears; a second completion attempt changes
neither inventory nor the ledger. -/
theorem C1_deduction_exactly_once_on_completion_witness :
    ((updateWorkOrderStatus
          ⟨[⟨10, WOStatus.completed, none, none, none, some 3⟩],
            [⟨1, 10, 1, 2⟩], [], [], [⟨1, 8, 5⟩],
            [saleTx ⟨10, WOStatus.completed, none, none, none, some 3⟩ ⟨1, 10, 1, 2⟩],
            []⟩ 10 WOStatus.completed).inventory_items =
        [⟨1, 8, 5⟩] ∧
      (updateWorkOrderStatus
          ⟨[⟨10, WOStatus.completed, none, none, none, some 3⟩],
            [⟨1, 10, 1, 2⟩], [], [], [⟨1, 8, 5⟩],
            [saleTx ⟨10, WOStatus.completed, none, none, none, some 3⟩ ⟨1, 10, 1, 2⟩],
            []⟩ 10 WOStatus.completed).inventory_transactions =
        [saleTx ⟨10, WOStatus.completed, none, none, none, some 3⟩ ⟨1, 10, 1, 2⟩]) :=
  ((C1_deduction_exactly_once_on_completion
    ⟨[⟨10, WOStatus.completed, none, none, none, some 3⟩],
      [⟨1, 10, 1, 2⟩], [], [], [⟨1, 8, 5⟩],
      [saleTx ⟨10, WOStatus.completed, none, none, none, some 3⟩ ⟨1, 10, 1, 2⟩],
      []⟩ 10 WOStatus.completed
    ⟨10, WOStatus.completed, none, none, none, some 3⟩ (by decide)).1) (by decide)

/-! ## Stored procedure `complete_work_order` (schema fixes file, Fix 14)

```
CREATE OR REPLACE FUNCTION complete_work_order(p_work_order_id UUID,
    p_user_id UUID) RETURNS VOID AS
DECLARE v_previous_status VARCHAR(20);
BEGIN
    SELECT status INTO v_previous_status FROM work_orders
        WHERE id = p_work_order_id;
    UPDATE work_orders SET status = 'completed', actual_end = NOW()
        WHERE id = p_work_order_id;
    INSERT INTO work_order_status_history (work_order_id, previous_status,
        new_status, changed_by)
    VALUES (p_work_order_id, v_previous_status, 'completed', p_user_id);
END;
```
-/

/-- The stored procedure.  When no row matches, the history INSERT would
violate the foreign key on `work_order_id` and the transaction would be
rolled back, so that case leaves the state unchanged.  The UPDATE fires
the AFTER UPDATE inventory trigger. -/
def complete_work_order (db : DB) (p_work_order_id p_user_id : Nat)
    (now : Int) : DB :=
  match db.work_orders.find? (fun w => w.id = p_work_order_id) with
  | none => db
  | some old =>
      let db1 := work_orders_update db p_work_order_id
        (fun w => { w with status := WOStatus.completed, actual_end := some now })
      { db1 with work_order_status_history :=
          db1.work_order_status_history ++
            [{ work_order_id := p_work_order_id
               previous_status := some old.status
               new_status := WOStatus.completed
               changed_by := some p_user_id
               notes := none }] }

/-- The column list of `CREATE TABLE work_orders`, in schema order. -/
def work_orders_columns : List String :=
  ["id", "order_number", "client_id", "title", "description", "priority",
   "status", "service_location", "scheduled_start", "scheduled_end",
   "actual_start", "actual_end", "estimated_duration",
   "assigned_technician_id", "quote_id", "is_recurring",
   "recurrence_pattern", "created_by", "created_at", "updated_at"]

/-- The fields the frontend status-change mutation passes
(`useWorkOrders.js`: `({ id, status, notes }) => updateWorkOrderStatus(id,
status, notes)`). -/
def update_status_request_fields : List String :=
  ["id", "status", "notes"]

/-- The inventory trigger never changes the `work_orders` table. -/
theorem adjust_inventory_work_orders_eq (db : DB) (old new : WorkOrderRow) :
    (adjust_inventory_on_work_order_complete db old new).work_orders =
      db.work_orders := by
  unfold adjust_inventory_on_work_order_complete
  split <;> rfl

/-- The inventory trigger never changes the status-history table. -/
theorem adjust_inventory_history_eq (db : DB) (old new : WorkOrderRow) :
    (adjust_inventory_on_work_order_complete db old new).work_order_status_history =
      db.work_order_status_history := by
  unfold adjust_inventory_on_work_order_complete
  split <;> rfl

/-- C3 counterexample: work order 10 (in progress) uses 2 units of item 1
while only 1 unit is in stock.  The claim requires the completion attempt
to fail with `InsufficientInventoryError` and to leave status, stock and
ledger untouched; the code instead commits the completion, drives the
stock to -1 and appends the sale row. -/
theorem C3_counterexample :
    (updateWorkOrderStatus
        ⟨[⟨10, WOStatus.in_progress, none, none, none, some 3⟩],
          [⟨1, 10, 1, 2⟩], [], [], [⟨1, 1, 5⟩], [], []⟩
        10 WOStatus.completed).work_orders =
      [⟨10, WOStatus.completed, none, none, none, some 3⟩] ∧
    (updateWorkOrderStatus
        ⟨[⟨10, WOStatus.in_progress, none, none, none, some 3⟩],
          [⟨1, 10, 1, 2⟩], [], [], [⟨1, 1, 5⟩], [], []⟩
        10 WOStatus.completed).inventory_items =
      [⟨1, -1, 5⟩] ∧
    (updateWorkOrderStatus
        ⟨[⟨10, WOStatus.in_progress, none, none, none, some 3⟩],
          [⟨1, 10, 1, 2⟩], [], [], [⟨1, 1, 5⟩], [], []⟩
        10 WOStatus.completed).inventory_transactions =
      [⟨1, TxType.sale, -2, some 10, some "work_order", some 3⟩] := by
  decide

/-- C3 amended: the transition into `completed` performs the inventory
deduction unconditionally — there is no insufficient-stock check, the
completion is never rejected, the stock decrement is committed even when
it makes `quantity_in_stock` negative, and the sale rows are always
appended to the ledger. -/
theorem C3_deduction_unconditional :
    ∀ (db : DB) (woId : Nat) (old : WorkOrderRow),
    db.work_orders.find? (fun w => w.id = woId) = some old →
    old.status ≠ WOStatus.completed →
    ({ old with status := WOStatus.completed } ∈
        (updateWorkOrderStatus db woId WOStatus.completed).work_orders) ∧
    ((updateWorkOrderStatus db woId WOStatus.completed).inventory_transactions =
      db.inventory_transactions ++
        (db.work_order_items.filter (fun woi => woi.work_order_id = woId)).map
          (saleTx { old with status := WOStatus.completed })) ∧
    (∀ ii ∈ db.inventory_items, ∀ woi : WorkOrderItemRow,
      (db.work_order_items.filter
          (fun woi => woi.work_order_id = woId)).find?
          (fun woi => woi.inventory_item_id = ii.id) = some woi →
      { ii with quantity_in_stock := ii.quantity_in_stock - woi.quantity } ∈
        (updateWorkOrderStatus db woId WOStatus.completed).inventory_items) := by
  intro db woId old hfind hold
  have hid : old.id = woId := by
    have hp := List.find?_some hfind
    simpa using hp
  have hmem : old ∈ db.work_orders := List.mem_of_find?_eq_some hfind
  unfold updateWorkOrderStatus work_orders_update
  rw [hfind]
  simp only
  unfold adjust_inventory_on_work_order_complete
  rw [if_pos]
  swap
  · exact ⟨rfl, hold⟩
  refine ⟨?_, ?_, ?_⟩
  · refine List.mem_map.mpr ⟨old, hmem, ?_⟩
    rw [if_pos hid]
  · simp only [hid]
  · intro ii hii woi hwoi
    refine List.mem_map.mpr ⟨ii, hii, ?_⟩
    simp only [hid, hwoi]

/-- Witness for C3's amended statement: completing work order 10 with
stock 1 and demand 2 leaves item 1 at stock -1. -/
theorem C3_deduction_unconditional_witness :
    ((⟨1, -1, 5⟩ : InventoryItemRow) ∈
      (updateWorkOrderStatus
          ⟨[⟨10, WOStatus.in_progress, none, none, none, some 3⟩],
            [⟨1, 10, 1, 2⟩], [], [], [⟨1, 1, 5⟩], [], []⟩
          10 WOStatus.completed).inventory_items) :=
  (C3_deduction_unconditional
      ⟨[⟨10, WOStatus.in_progress, none, none, none, some 3⟩],
        [⟨1, 10, 1, 2⟩], [], [], [⟨1, 1, 5⟩], [], []⟩
      10 ⟨10, WOStatus.in_progress, none, none, none, some 3⟩
      (by decide) (by decide)).2.2
    ⟨1, 1, 5⟩ (by decide) ⟨1, 10, 1, 2⟩ (by decide)

/-- C4 counterexample: work order 5 is `cancelled`, a terminal state.
The claim requires any transition attempt out of a terminal state to be
rejected with `StateTransitionError`, leaving the work order unchanged.
Instead, `complete_work_order` transitions it to `completed`, stamps
`actual_end` and appends a history record — no rejection occurs. -/
theorem C4_counterexample :
    (complete_work_order
        ⟨[⟨5, WOStatus.cancelled, none, none, none, none⟩],
          [], [], [], [], [], []⟩ 5 100 0).work_orders =
      [⟨5, WOStatus.completed, none, none, some 0, none⟩] ∧
    (complete_work_order
        ⟨[⟨5, WOStatus.cancelled, none, none, none, none⟩],
          [], [], [], [], [], []⟩ 5 100 0).work_order_status_history =
      [⟨5, some WOStatus.cancelled, WOStatus.completed, some 100, none⟩] ∧
    (updateWorkOrderStatus
        ⟨[⟨6, WOStatus.completed, none, none, none, none⟩],
          [], [], [], [], [], []⟩ 6 WOStatus.in_progress).work_orders =
      [⟨6, WOStatus.in_progress, none, none, none, none⟩] := by
  decide

/-- C4 amended: the code has no transition guard.  `complete_work_order`
transitions any existing work order to `completed` regardless of its
prior status — including the terminal statuses `completed` and
`cancelled` — updating the row, stamping `actual_end` and appending a
status-history record; no `StateTransitionError` is ever raised (the
schema's CHECK constrains only the set of status values, not the
transitions between them). -/
theorem C4_no_transition_guard :
    ∀ (db : DB) (woId uid : Nat) (now : Int) (old : WorkOrderRow),
    db.work_orders.find? (fun w => w.id = woId) = some old →
    ({ old with status := WOStatus.completed, actual_end := some now } ∈
        (complete_work_order db woId uid now).work_orders) ∧
    ((complete_work_order db woId uid now).work_order_status_history =
      db.work_order_status_history ++
        [⟨woId, some old.status, WOStatus.completed, some uid, none⟩]) := by
  intro db woId uid now old hfind
  have hid : old.id = woId := by
    have hp := List.find?_some hfind
    simpa using hp
  have hmem : old ∈ db.work_orders := List.mem_of_find?_eq_some hfind
  unfold complete_work_order work_orders_update
  rw [hfind]
  simp only
  constructor
  · rw [adjust_inventory_work_orders_eq]
    refine List.mem_map.mpr ⟨old, hmem, ?_⟩
    rw [if_pos hid]
  · rw [adjust_inventory_history_eq]

/-- Witness for C4's amended statement: a `cancelled` (terminal) work
order is still driven to `completed` with a fresh history record. -/
theorem C4_no_transition_guard_witness :
    ((⟨5, WOStatus.completed, none, none, some 0, none⟩ : WorkOrderRow) ∈
      (complete_work_order
          ⟨[⟨5, WOStatus.cancelled, none, none, none, none⟩],
            [], [], [], [], [], []⟩ 5 100 0).work_orders) ∧
    ((complete_work_order
        ⟨[⟨5, WOStatus.cancelled, none, none, none, none⟩],
          [], [], [], [], [], []⟩ 5 100 0).work_order_status_history =
      [] ++ [⟨5, some WOStatus.cancelled, WOStatus.completed, some 100, none⟩]) :=
  C4_no_transition_guard
    ⟨[⟨5, WOStatus.cancelled, none, none, none, none⟩],
      [], [], [], [], [], []⟩ 5 100 0
    ⟨5, WOStatus.cancelled, none, none, none, none⟩ (by decide)

/-- C5 counterexample: the claim requires every transition to increment
the work order's version counter and callers to supply the version they
last observed.  The `work_orders` table has no `version` column at all,
and the frontend status mutation sends only id, status and notes — so
there is no version to increment, none is supplied, and no
`ConcurrencyError` can be raised on mismatch. -/
theorem C5_counterexample :
    ("version" ∉ work_orders_columns) ∧
    ("version" ∉ update_status_request_fields) := by
  decide

/-- C5 amended: every successful status transition through
`complete_work_order` appends exactly one status-history record carrying
the previous status, the new status and the acting user; but the schema
has no version column, so no version counter is incremented, callers
supply no version, and no optimistic-concurrency check is performed. -/
theorem C5_history_appended_no_version :
    (∀ (db : DB) (woId uid : Nat) (now : Int) (old : WorkOrderRow),
      db.work_orders.find? (fun w => w.id = woId) = some old →
      (complete_work_order db woId uid now).work_order_status_history =
        db.work_order_status_history ++
          [⟨woId, some old.status, WOStatus.completed, some uid, none⟩]) ∧
    ("version" ∉ work_orders_columns) := by
  constructor
  · intro db woId uid now old hfind
    unfold complete_work_order work_orders_update
    rw [hfind]
    simp only
    rw [adjust_inventory_history_eq]
  · decide

/-- Witness for C5's amended statement: completing work order 7 records
exactly one history row (in progress → completed, actor 42). -/
theorem C5_history_appended_no_version_witness :
    (complete_work_order
        ⟨[⟨7, WOStatus.in_progress, none, none, none, none⟩],
          [], [], [], [], [], []⟩ 7 42 0).work_order_status_history =
      [] ++ [⟨7, some WOStatus.in_progress, WOStatus.completed, some 42, none⟩] :=
  C5_history_appended_no_version.1
    ⟨[⟨7, WOStatus.in_progress, none, none, none, none⟩],
      [], [], [], [], [], []⟩ 7 42 0
    ⟨7, WOStatus.in_progress, none, none, none, none⟩ (by decide)

/-! ## Scheduled-window validation

Schema (fixes file, Fix 10):
```
ALTER TABLE work_orders ADD CONSTRAINT work_order_time_check
CHECK (scheduled_end IS NULL OR scheduled_end > scheduled_start);
```
Frontend (`WorkOrderForm.js` `validate`). -/

/-- The CHECK constraint on `work_orders`.  SQL three-valued logic: a
CHECK is violated only when the expression evaluates to FALSE; a NULL
`scheduled_start` makes the comparison NULL, which passes. -/
def work_order_time_check (scheduled_start scheduled_end : Option Int) : Bool :=
  match scheduled_end with
  | none => true
  | some e =>
      match scheduled_start with
      | none => true
      | some s => decide (e > s)

/-- The fields of the work-order form relevant to its `validate`. -/
structure WOFormValues where
  client_id : String
  title : String
  scheduled_start : Option Int
  scheduled_end : Option Int
deriving DecidableEq, Repr

/-- The form's `validate` (`WorkOrderForm.js`), as field/message pairs:
client and title required, start required, and when both window ends are
set, `new Date(scheduled_end) <= new Date(scheduled_start)` is an error. -/
def workOrderFormValidate (values : WOFormValues) : List (String × String) :=
  (if values.client_id = "" then [("client_id", "Client is required")] else []) ++
  (if values.title = "" then [("title", "Title is required")] else []) ++
  (if values.scheduled_start = none then
      [("scheduled_start", "Start time is required")] else []) ++
  (match values.scheduled_start, values.scheduled_end with
   | some s, some e =>
      if e ≤ s then
        [("scheduled_end", "End time must be after start time")]
      else []
   | _, _ => [])

/-- C9: every stored work order with both window ends set has
`scheduled_end > scheduled_start`; a malformed window (end ≤ start) is
rejected both by the schema CHECK and by the form validation. -/
theorem C9_window_well_formed :
    (∀ (row : WorkOrderRow) (s e : Int),
      work_order_time_check row.scheduled_start row.scheduled_end = true →
      row.scheduled_start = some s → row.scheduled_end = some e → s < e) ∧
    (∀ (ss se : Option Int) (s e : Int),
      ss = some s → se = some e → e ≤ s →
      work_order_time_check ss se = false) ∧
    (∀ (v : WOFormValues) (s e : Int),
      v.scheduled_start = some s → v.scheduled_end = some e → e ≤ s →
      ("scheduled_end", "End time must be after start time") ∈
        workOrderFormValidate v) := by
  refine ⟨?_, ?_, ?_⟩
  · intro row s e hchk hs he
    unfold work_order_time_check at hchk
    rw [hs, he] at hchk
    simpa using hchk
  · intro ss se s e hs he hle
    subst hs; subst he
    unfold work_order_time_check
    simpa using hle
  · intro v s e hs he hle
    unfold workOrderFormValidate
    rw [hs, he]
    simp only [List.mem_append]
    right
    simp [hle]

/-- Witness for C9 at concrete inputs: a stored window (10, 20) satisfies
10 < 20, while a malformed window (20, 10) fails the CHECK and is flagged
by the form. -/
theorem C9_window_well_formed_witness :
    (10 : Int) < 20 ∧
    work_order_time_check (some 20) (some 10) = false ∧
    ("scheduled_end", "End time must be after start time") ∈
      workOrderFormValidate ⟨"c1", "t", some 20, some 10⟩ :=
  ⟨C9_window_well_formed.1 ⟨1, WOStatus.pending, some 10, some 20, none, none⟩
      10 20 (by decide) rfl rfl,
   C9_window_well_formed.2.1 (some 20) (some 10) 20 10 rfl rfl (by decide),
   C9_window_well_formed.2.2 ⟨"c1", "t", some 20, some 10⟩ 20 10 rfl rfl
      (by decide)⟩

/-! ## Cascade deletes -/

/-- DELETE FROM work_orders WHERE id = woId.  The child tables
`work_order_status_history`, `work_order_items` and `work_order_notes`
each declare `work_order_id ... REFERENCES work_orders(id) ON DELETE
CASCADE`, so their rows for this parent are deleted with it. -/
def work_orders_delete (db : DB) (woId : Nat) : DB :=
  { db with
    work_orders := db.work_orders.filter (fun w => w.id ≠ woId)
    work_order_status_history :=
      db.work_order_status_history.filter (fun h => h.work_order_id ≠ woId)
    work_order_items :=
      db.work_order_items.filter (fun i => i.work_order_id ≠ woId)
    work_order_notes :=
      db.work_order_notes.filter (fun n => n.work_order_id ≠ woId) }

/-- DELETE FROM inventory_items WHERE id = itemId.
`inventory_transactions.item_id` and `work_order_items.inventory_item_id`
both declare ON DELETE CASCADE. -/
def inventory_items_delete (db : DB) (itemId : Nat) : DB :=
  { db with
    inventory_items := db.inventory_items.filter (fun ii => ii.id ≠ itemId)
    inventory_transactions :=
      db.inventory_transactions.filter (fun t => t.item_id ≠ itemId)
    work_order_items :=
      db.work_order_items.filter (fun woi => woi.inventory_item_id ≠ itemId) }

/-- C10: deleting a work order removes exactly that work order's
status-history records, line items and notes (rows of other work orders
survive untouched), and deleting an inventory item removes exactly the
ledger rows that reference it. -/
theorem C10_cascade_delete :
    ∀ (db : DB) (woId itemId : Nat),
    (∀ w : WorkOrderRow,
      w ∈ (work_orders_delete db woId).work_orders ↔
        (w ∈ db.work_orders ∧ w.id ≠ woId)) ∧
    (∀ h : StatusHistoryRow,
      h ∈ (work_orders_delete db woId).work_order_status_history ↔
        (h ∈ db.work_order_status_history ∧ h.work_order_id ≠ woId)) ∧
    (∀ i : WorkOrderItemRow,
      i ∈ (work_orders_delete db woId).work_order_items ↔
        (i ∈ db.work_order_items ∧ i.work_order_id ≠ woId)) ∧
    (∀ n : WorkOrderNoteRow,
      n ∈ (work_orders_delete db woId).work_order_notes ↔
        (n ∈ db.work_order_notes ∧ n.work_order_id ≠ woId)) ∧
    (∀ t : InventoryTransactionRow,
      t ∈ (inventory_items_delete db itemId).inventory_transactions ↔
        (t ∈ db.inventory_transactions ∧ t.item_id ≠ itemId)) := by
  intro db woId itemId
  refine ⟨?_, ?_, ?_, ?_, ?_⟩ <;>
    intro x <;>
    simp [work_orders_delete, inventory_items_delete, List.mem_filter]

/-! ## Scheduling engine (modelled from the spec)

The availability resolver, conflict detector and booking coordinator are
server-side components that the repository snapshot reaches only through
the frontend REST wrappers (`schedulingApi.js` `scheduleAppointment`);
their implementation is not under src.  They are modelled here from
§4.1–§4.3 of the specification. -/

/-- A technician row: `technicians.max_jobs_per_day` (schema default 6). -/
structure TechnicianRow where
  id : Nat
  max_jobs_per_day : Nat
deriving DecidableEq, Repr

/-- Modelled from the spec: one resolved availability window of a
technician — recurring weekly hours with date-specific exceptions already
applied (§4.1, the missing Availability Resolver), as a half-open
interval. -/
structure AvailWindow where
  technician_id : Nat
  win_start : Int
  win_end : Int
deriving DecidableEq, Repr

/-- Modelled from the spec: the state the scheduling engine acts on. -/
structure SchedState where
  work_orders : List WorkOrderRow
  technicians : List TechnicianRow
  availability : List AvailWindow
deriving DecidableEq, Repr

/-- Modelled from the spec: the structured rejection reasons of §4.2. -/
inductive ConflictReason
  | OUTSIDE_AVAILABILITY
  | OVERLAP
  | DAILY_CAP_EXCEEDED
deriving DecidableEq, Repr

/-- Modelled from the spec: booking errors of §4.3/§7. -/
inductive BookError
  | validation
  | notFound
  | conflict (r : ConflictReason)
deriving DecidableEq, Repr

/-- Modelled from the spec: two half-open windows overlap. -/
def overlaps (s1 e1 s2 e2 : Int) : Bool :=
  decide (s1 < e2) && decide (s2 < e1)

/-- Modelled from the spec: a committed work order is any non-cancelled
one. -/
def isCommitted (w : WorkOrderRow) : Bool :=
  decide (w.status ≠ WOStatus.cancelled)

/-- Modelled from the spec: the calendar day of a timestamp in minutes. -/
def dayOf (t : Int) : Int := t / 1440

/-- Modelled from the spec: the work order is committed to the technician
on the given day. -/
def committedOnDay (w : WorkOrderRow) (techId : Nat) (d : Int) : Bool :=
  decide (w.assigned_technician_id = some techId) && isCommitted w &&
    (match w.scheduled_start with
     | some s => decide (dayOf s = d)
     | none => false)

/-- Modelled from the spec (§4.2 step b): count of committed work orders
of a technician on a day, excluding an optional work-order id. -/
def committedCount (l : List WorkOrderRow) (techId : Nat) (d : Int)
    (excluded : Option Nat) : Nat :=
  (l.filter (fun w =>
      committedOnDay w techId d && !(decide (excluded = some w.id)))).length

/-- Modelled from the spec (§4.1): the candidate lies inside an
availability window of the technician. -/
def withinAvailability (st : SchedState) (techId : Nat) (s e : Int) : Bool :=
  st.availability.any (fun a =>
    decide (a.technician_id = techId) && decide (a.win_start ≤ s) &&
      decide (e ≤ a.win_end))

/-- Modelled from the spec (§4.2 step a): the candidate overlaps a
committed booking of the technician, the excluded id aside. -/
def overlapConflict (st : SchedState) (techId : Nat) (s e : Int)
    (excluded : Option Nat) : Bool :=
  st.work_orders.any (fun w =>
    decide (w.assigned_technician_id = some techId) && isCommitted w &&
      !(decide (excluded = some w.id)) &&
      (match w.scheduled_start, w.scheduled_end with
       | some s2, some e2 => overlaps s e s2 e2
       | _, _ => false))

/-- Modelled from the spec (§4.2): the conflict detector — availability
containment, then no overlap with committed bookings, then the daily
cap. -/
def detectConflict (st : SchedState) (techId : Nat) (s e : Int)
    (excluded : Option Nat) (cap : Nat) : Option ConflictReason :=
  if !withinAvailability st techId s e then
    some ConflictReason.OUTSIDE_AVAILABILITY
  else if overlapConflict st techId s e excluded then
    some ConflictReason.OVERLAP
  else if cap ≤ committedCount st.work_orders techId (dayOf s) excluded then
    some ConflictReason.DAILY_CAP_EXCEEDED
  else none

/-- Modelled from the spec (§4.3): commit the accepted window — set the
window and technician, and move a pending order to scheduled. -/
def commitWindow (w : WorkOrderRow) (techId : Nat) (s e : Int) : WorkOrderRow :=
  { w with
    scheduled_start := some s
    scheduled_end := some e
    assigned_technician_id := some techId
    status := if w.status = WOStatus.pending then WOStatus.scheduled else w.status }

/-- Modelled from the spec (§4.3 `bookAppointment`): validate the window,
run the conflict detector inside the critical section, commit on
acceptance. -/
def bookAppointment (st : SchedState) (woId techId : Nat) (s e : Int) :
    Except BookError SchedState :=
  if e ≤ s then Except.error BookError.validation
  else
    match st.work_orders.find? (fun w => w.id = woId),
          st.technicians.find? (fun t => t.id = techId) with
    | some _, some tech =>
        match detectConflict st techId s e none tech.max_jobs_per_day with
        | some r => Except.error (BookError.conflict r)
        | none =>
            Except.ok { st with work_orders := st.work_orders.map (fun w =>
              if w.id = woId then commitWindow w techId s e else w) }
    | _, _ => Except.error BookError.notFound

/-- Modelled from the spec (§4.3 `rescheduleAppointment`): as booking,
but the work order's own id is excluded from the conflict checks. -/
def rescheduleAppointment (st : SchedState) (woId techId : Nat) (s e : Int) :
    Except BookError SchedState :=
  if e ≤ s then Except.error BookError.validation
  else
    match st.work_orders.find? (fun w => w.id = woId),
          st.technicians.find? (fun t => t.id = techId) with
    | some _, some tech =>
        match detectConflict st techId s e (some woId) tech.max_jobs_per_day with
        | some r => Except.error (BookError.conflict r)
        | none =>
            Except.ok { st with work_orders := st.work_orders.map (fun w =>
              if w.id = woId then commitWindow w techId s e else w) }
    | _, _ => Except.error BookError.notFound

/-- The no-overlap invariant of §8: overlapping committed windows of one
technician belong to the same work order unless one side is cancelled. -/
def NoOverlap (l : List WorkOrderRow) : Prop :=
  ∀ a ∈ l, ∀ b ∈ l, ∀ t : Nat,
    a.assigned_technician_id = some t → b.assigned_technician_id = some t →
    ∀ sa ea sb eb : Int,
      a.scheduled_start = some sa → a.scheduled_end = some ea →
      b.scheduled_start = some sb → b.scheduled_end = some eb →
      sa < eb → sb < ea →
      a.id = b.id ∨ a.status = WOStatus.cancelled ∨
        b.status = WOStatus.cancelled

/-- The daily-cap invariant of §8: committed work orders of a technician
on any day never exceed that technician's `max_jobs_per_day`. -/
def DailyCapOK (st : SchedState) : Prop :=
  ∀ t ∈ st.technicians, ∀ d : Int,
    committedCount st.work_orders t.id d none ≤ t.max_jobs_per_day

/-- Unfolding a successful conflict detection: the candidate is within
availability, overlaps no committed booking, and the day's count is below
the cap. -/
theorem detectConflict_none {st : SchedState} {techId : Nat} {s e : Int}
    {excluded : Option Nat} {cap : Nat}
    (h : detectConflict st techId s e excluded cap = none) :
    withinAvailability st techId s e = true ∧
    overlapConflict st techId s e excluded = false ∧
    committedCount st.work_orders techId (dayOf s) excluded < cap := by
  unfold detectConflict at h
  split at h
  · exact absurd h (by simp)
  · split at h
    · exact absurd h (by simp)
    · split at h
      · exact absurd h (by simp)
      · rename_i h1 h2 h3
        refine ⟨?_, ?_, Nat.lt_of_not_le h3⟩
        · simpa using h1
        · simpa using h2

/-- Unfolding a successful booking: the state's technicians and
availability are untouched and the work-orders table is the committed
map. -/
theorem bookAppointment_ok {st st' : SchedState} {woId techId : Nat}
    {s e : Int} (h : bookAppointment st woId techId s e = Except.ok st') :
    (¬ e ≤ s) ∧
    ∃ tech : TechnicianRow,
      st.technicians.find? (fun t => t.id = techId) = some tech ∧
      detectConflict st techId s e none tech.max_jobs_per_day = none ∧
      st' = { st with work_orders := st.work_orders.map (fun w =>
                if w.id = woId then commitWindow w techId s e else w) } := by
  unfold bookAppointment at h
  split at h
  · exact absurd h (by simp)
  · rename_i hle
    split at h
    · rename_i wo tech hwo htech
      split at h
      · exact absurd h (by simp)
      · rename_i hconf
        refine ⟨hle, tech, htech, hconf, ?_⟩
        injection h with h
        exact h.symm
    · exact absurd h (by simp)

/-- Unfolding a successful reschedule, as for booking but with the order
itself excluded. -/
theorem rescheduleAppointment_ok {st st' : SchedState} {woId techId : Nat}
    {s e : Int}
    (h : rescheduleAppointment st woId techId s e = Except.ok st') :
    (¬ e ≤ s) ∧
    ∃ tech : TechnicianRow,
      st.technicians.find? (fun t => t.id = techId) = some tech ∧
      detectConflict st techId s e (some woId) tech.max_jobs_per_day = none ∧
      st' = { st with work_orders := st.work_orders.map (fun w =>
                if w.id = woId then commitWindow w techId s e else w) } := by
  unfold rescheduleAppointment at h
  split at h
  · exact absurd h (by simp)
  · rename_i hle
    split at h
    · rename_i wo tech hwo htech
      split at h
      · exact absurd h (by simp)
      · rename_i hconf
        refine ⟨hle, tech, htech, hconf, ?_⟩
        injection h with h
        exact h.symm
    · exact absurd h (by simp)

/-- A clean overlap check never misses a committed booking of the
technician other than the excluded order. -/
theorem overlapConflict_false {st : SchedState} {techId : Nat} {s e : Int}
    {excluded : Option Nat}
    (h : overlapConflict st techId s e excluded = false) :
    ∀ b ∈ st.work_orders,
      b.assigned_technician_id = some techId →
      b.status ≠ WOStatus.cancelled →
      excluded ≠ some b.id →
      ∀ sb eb : Int, b.scheduled_start = some sb → b.scheduled_end = some eb →
        ¬ (s < eb ∧ sb < e) := by
  intro b hb htech hc hex sb eb hsb heb hover
  unfold overlapConflict at h
  rw [List.any_eq_false] at h
  have hbf := h b hb
  rw [hsb, heb] at hbf
  simp [isCommitted, htech, hc, hex, overlaps, hover.1, hover.2] at hbf

/-- Committing a non-conflicting window preserves the no-overlap
invariant. -/
theorem noOverlap_commit (st : SchedState) (woId techId : Nat) (s e : Int)
    (excluded : Option Nat)
    (hexcl : excluded = none ∨ excluded = some woId)
    (hconf : overlapConflict st techId s e excluded = false)
    (hinv : NoOverlap st.work_orders) :
    NoOverlap (st.work_orders.map (fun w =>
      if w.id = woId then commitWindow w techId s e else w)) := by
  intro a' ha' b' hb' t hat hbt sa ea sb eb hsa hea hsb heb h1 h2
  obtain ⟨a, ha, rfl⟩ := List.mem_map.mp ha'
  obtain ⟨b, hb, rfl⟩ := List.mem_map.mp hb'
  by_cases haid : a.id = woId <;> by_cases hbid : b.id = woId
  · -- both are the booked order: equal ids
    rw [if_pos haid, if_pos hbid]
    left
    show (commitWindow a techId s e).id = (commitWindow b techId s e).id
    simp [commitWindow, haid, hbid]
  · -- a is the booked order, b a pre-existing one
    rw [if_pos haid] at hat hsa hea ⊢
    rw [if_neg hbid] at hbt hsb heb ⊢
    simp only [commitWindow] at hat hsa hea
    by_cases hbc : b.status = WOStatus.cancelled
    · exact Or.inr (Or.inr hbc)
    · exfalso
      have hbtech : b.assigned_technician_id = some techId := by
        rw [hbt, Option.some.inj hat]
      have hex : excluded ≠ some b.id := by
        rcases hexcl with hx | hx <;> rw [hx] <;> intro hcon
        · exact Option.noConfusion hcon
        · exact hbid (Option.some.inj hcon).symm
      have hs' : s = sa := Option.some.inj hsa
      have he' : e = ea := Option.some.inj hea
      exact overlapConflict_false hconf b hb hbtech hbc hex sb eb hsb heb
        ⟨hs' ▸ h1, he' ▸ h2⟩
  · -- b is the booked order, a a pre-existing one
    rw [if_neg haid] at hat hsa hea ⊢
    rw [if_pos hbid] at hbt hsb heb ⊢
    simp only [commitWindow] at hbt hsb heb
    by_cases hac : a.status = WOStatus.cancelled
    · exact Or.inr (Or.inl hac)
    · exfalso
      have hatech : a.assigned_technician_id = some techId := by
        rw [hat, Option.some.inj hbt]
      have hex : excluded ≠ some a.id := by
        rcases hexcl with hx | hx <;> rw [hx] <;> intro hcon
        · exact Option.noConfusion hcon
        · exact haid (Option.some.inj hcon).symm
      have hs' : s = sb := Option.some.inj hsb
      have he' : e = eb := Option.some.inj heb
      exact overlapConflict_false hconf a ha hatech hac hex sa ea hsa hea
        ⟨hs' ▸ h2, he' ▸ h1⟩
  · -- neither is the booked order
    rw [if_neg haid] at hat hsa hea ⊢
    rw [if_neg hbid] at hbt hsb heb ⊢
    exact hinv a ha b hb t hat hbt sa ea sb eb hsa hea hsb heb h1 h2

/-- C6: the no-overlap invariant — overlapping half-open windows of two
committed work orders of one technician force the orders to coincide or
one of them to be cancelled — is preserved by every booking and by every
reschedule. -/
theorem C6_no_overlap_preserved :
    (∀ (st st' : SchedState) (woId techId : Nat) (s e : Int),
      bookAppointment st woId techId s e = Except.ok st' →
      NoOverlap st.work_orders → NoOverlap st'.work_orders) ∧
    (∀ (st st' : SchedState) (woId techId : Nat) (s e : Int),
      rescheduleAppointment st woId techId s e = Except.ok st' →
      NoOverlap st.work_orders → NoOverlap st'.work_orders) := by
  constructor
  · intro st st' woId techId s e hok hinv
    obtain ⟨-, tech, -, hconf, hst'⟩ := bookAppointment_ok hok
    subst hst'
    exact noOverlap_commit st woId techId s e none (Or.inl rfl)
      (detectConflict_none hconf).2.1 hinv
  · intro st st' woId techId s e hok hinv
    obtain ⟨-, tech, -, hconf, hst'⟩ := rescheduleAppointment_ok hok
    subst hst'
    exact noOverlap_commit st woId techId s e (some woId) (Or.inr rfl)
      (detectConflict_none hconf).2.1 hinv

/-- Witness for C6: booking the pending work order 1 with technician 1
into the free window [60, 120) succeeds and the resulting table still
satisfies the no-overlap invariant. -/
theorem C6_no_overlap_preserved_witness :
    NoOverlap [⟨1, WOStatus.scheduled, some 60, some 120, none, some 1⟩] :=
  C6_no_overlap_preserved.1
    ⟨[⟨1, WOStatus.pending, none, none, none, none⟩], [⟨1, 6⟩],
      [⟨1, 0, 1440⟩]⟩
    ⟨[⟨1, WOStatus.scheduled, some 60, some 120, none, some 1⟩], [⟨1, 6⟩],
      [⟨1, 0, 1440⟩]⟩
    1 1 60 120 rfl
    (by
      intro a ha b hb t hat hbt sa ea sb eb hsa hea hsb heb h1 h2
      rw [List.mem_singleton] at ha hb
      subst ha; subst hb
      exact Or.inl rfl)

/-- Mapping a list elementwise cannot grow a filter count when each
image satisfies the predicate only if its preimage did. -/
theorem length_filter_map_le {α : Type} (l : List α) (g : α → α)
    (p : α → Bool) (h : ∀ w ∈ l, p (g w) = true → p w = true) :
    (List.filter p (l.map g)).length ≤ (List.filter p l).length := by
  induction l with
  | nil => simp
  | cons w t ih =>
      have ihw := ih (fun x hx => h x (List.mem_cons_of_mem w hx))
      rw [List.map_cons, List.filter_cons, List.filter_cons]
      cases hpg : p (g w) with
      | true =>
          rw [h w (List.mem_cons_self w t) hpg]
          simpa using Nat.succ_le_succ ihw
      | false =>
          cases hpw : p w with
          | true => simp only [if_pos rfl, List.length_cons, if_neg Bool.false_ne_true]
                    exact Nat.le_succ_of_le ihw
          | false => simpa using ihw

/-- Mapping a list elementwise grows a filter count by at most one when
the map only changes entries with one fixed key and keys are unique. -/
theorem length_filter_map_le_succ {α : Type} (l : List α) (g : α → α)
    (p : α → Bool) (key : α → Nat) (k : Nat)
    (hg : ∀ w, key w ≠ k → g w = w)
    (hnd : (l.map key).Nodup) :
    (List.filter p (l.map g)).length ≤ (List.filter p l).length + 1 := by
  induction l with
  | nil => simp
  | cons w t ih =>
      rw [List.map_cons, List.nodup_cons] at hnd
      obtain ⟨hwk, hndt⟩ := hnd
      rw [List.map_cons, List.filter_cons, List.filter_cons]
      by_cases hw : key w = k
      · have htid : t.map g = t := by
          have hfix : ∀ x ∈ t, g x = x := by
            intro x hx
            refine hg x (fun hxk => hwk ?_)
            rw [hw, ← hxk]
            exact List.mem_map_of_mem key hx
          calc t.map g = t.map id := List.map_congr_left hfix
          _ = t := List.map_id t
        rw [htid]
        have hmono : (List.filter p t).length ≤
            (if p w then w :: List.filter p t else List.filter p t).length := by
          cases hpw : p w <;> simp
        cases hpg : p (g w) <;> simp only [if_pos rfl, if_neg Bool.false_ne_true]
        · exact Nat.le_succ_of_le hmono
        · simpa using Nat.succ_le_succ hmono
      · rw [hg w hw]
        have iht := ih hndt
        cases hpw : p w <;> simp only [if_pos rfl, if_neg Bool.false_ne_true]
        · exact iht
        · simpa using Nat.succ_le_succ iht

/-- In a list with pairwise-distinct keys, equal keys force equal
elements. -/
theorem mem_eq_of_key_nodup {α : Type} (l : List α) (key : α → Nat)
    (hnd : (l.map key).Nodup) :
    ∀ a ∈ l, ∀ b ∈ l, key a = key b → a = b := by
  induction l with
  | nil => intro a ha; exact absurd ha (List.not_mem_nil a)
  | cons w t ih =>
      rw [List.map_cons, List.nodup_cons] at hnd
      obtain ⟨hwk, hndt⟩ := hnd
      intro a ha b hb hk
      rcases List.mem_cons.mp ha with rfl | ha' <;>
        rcases List.mem_cons.mp hb with rfl | hb'
      · rfl
      · exact absurd (hk.symm ▸ List.mem_map_of_mem key hb') hwk
      · exact absurd (hk ▸ List.mem_map_of_mem key ha') hwk
      · exact ih hndt a ha' b hb' hk

/-- C7: the daily-cap invariant — committed work orders of a technician
on one calendar day never exceed `max_jobs_per_day` — is preserved by
every booking, and a booking request on a day already at the cap is
rejected with DAILY_CAP_EXCEEDED even when its window overlaps no
existing booking. -/
theorem C7_daily_cap :
    (∀ (st st' : SchedState) (woId techId : Nat) (s e : Int),
      (st.work_orders.map (fun w => w.id)).Nodup →
      (st.technicians.map (fun t => t.id)).Nodup →
      bookAppointment st woId techId s e = Except.ok st' →
      DailyCapOK st → DailyCapOK st') ∧
    (∀ (st : SchedState) (woId techId : Nat) (s e : Int)
        (wo : WorkOrderRow) (tech : TechnicianRow),
      st.work_orders.find? (fun w => w.id = woId) = some wo →
      st.technicians.find? (fun t => t.id = techId) = some tech →
      ¬ e ≤ s →
      withinAvailability st techId s e = true →
      overlapConflict st techId s e none = false →
      tech.max_jobs_per_day ≤
        committedCount st.work_orders techId (dayOf s) none →
      bookAppointment st woId techId s e =
        Except.error (BookError.conflict ConflictReason.DAILY_CAP_EXCEEDED)) := by
  constructor
  · intro st st' woId techId s e hndw hndt hok hcap
    obtain ⟨-, tech, htech, hconf, hst'⟩ := bookAppointment_ok hok
    obtain ⟨-, -, hcount⟩ := detectConflict_none hconf
    subst hst'
    intro t ht d
    unfold committedCount
    by_cases hcase : t.id = techId ∧ d = dayOf s
    · obtain ⟨h1, h2⟩ := hcase
      have htid : tech.id = techId := by simpa using List.find?_some htech
      have hteq : t = tech :=
        mem_eq_of_key_nodup st.technicians (fun x => x.id) hndt t ht tech
          (List.mem_of_find?_eq_some htech)
          (by show t.id = tech.id; rw [h1, htid])
      rw [h1, h2, hteq]
      have hle := length_filter_map_le_succ st.work_orders
        (fun w => if w.id = woId then commitWindow w techId s e else w)
        (fun w => committedOnDay w techId (dayOf s) &&
          !(decide ((none : Option Nat) = some w.id)))
        (fun w => w.id) woId (fun w hw => if_neg hw) hndw
      unfold committedCount at hcount
      exact Nat.le_trans hle (Nat.succ_le_of_lt hcount)
    · refine Nat.le_trans (length_filter_map_le st.work_orders _ _ ?_) ?_
      · intro w hw hpg
        by_cases hww : w.id = woId
        · exfalso
          rw [if_pos hww] at hpg
          have hcd : committedOnDay (commitWindow w techId s e) t.id d = true := by
            simp only [Bool.and_eq_true] at hpg
            exact hpg.1
          simp only [committedOnDay, commitWindow, isCommitted,
            Bool.and_eq_true, decide_eq_true_eq, Option.some.injEq] at hcd
          exact hcase ⟨hcd.1.1.symm, hcd.2.symm⟩
        · rw [if_neg hww] at hpg
          exact hpg
      · have hc := hcap t ht d
        unfold committedCount at hc
        exact hc
  · intro st woId techId s e wo tech hwo htech hles hwithin hoverlap hcap
    unfold bookAppointment
    rw [if_neg hles, hwo, htech]
    simp only
    unfold detectConflict
    rw [hwithin, hoverlap]
    simp only [Bool.not_true, if_neg Bool.false_ne_true, if_pos hcap]

/-- Witness for C7: booking the single pending order keeps technician 1
within the cap of 6, and with 6 work orders already committed on the day,
a 7th, non-overlapping request at [400, 460) fails with
DAILY_CAP_EXCEEDED. -/
theorem C7_daily_cap_witness :
    DailyCapOK ⟨[⟨1, WOStatus.scheduled, some 60, some 120, none, some 1⟩],
      [⟨1, 6⟩], [⟨1, 0, 1440⟩]⟩ ∧
    bookAppointment
      ⟨[⟨1, WOStatus.scheduled, some 0, some 60, none, some 1⟩,
        ⟨2, WOStatus.scheduled, some 60, some 120, none, some 1⟩,
        ⟨3, WOStatus.scheduled, some 120, some 180, none, some 1⟩,
        ⟨4, WOStatus.scheduled, some 180, some 240, none, some 1⟩,
        ⟨5, WOStatus.scheduled, some 240, some 300, none, some 1⟩,
        ⟨6, WOStatus.scheduled, some 300, some 360, none, some 1⟩,
        ⟨7, WOStatus.pending, none, none, none, none⟩],
       [⟨1, 6⟩], [⟨1, 0, 1440⟩]⟩ 7 1 400 460 =
      Except.error (BookError.conflict ConflictReason.DAILY_CAP_EXCEEDED) :=
  ⟨C7_daily_cap.1
      ⟨[⟨1, WOStatus.pending, none, none, none, none⟩], [⟨1, 6⟩],
        [⟨1, 0, 1440⟩]⟩
      ⟨[⟨1, WOStatus.scheduled, some 60, some 120, none, some 1⟩],
        [⟨1, 6⟩], [⟨1, 0, 1440⟩]⟩
      1 1 60 120 (by decide) (by decide) rfl
      (by intro t ht d; simp [committedCount, committedOnDay]),
   C7_daily_cap.2
      ⟨[⟨1, WOStatus.scheduled, some 0, some 60, none, some 1⟩,
        ⟨2, WOStatus.scheduled, some 60, some 120, none, some 1⟩,
        ⟨3, WOStatus.scheduled, some 120, some 180, none, some 1⟩,
        ⟨4, WOStatus.scheduled, some 180, some 240, none, some 1⟩,
        ⟨5, WOStatus.scheduled, some 240, some 300, none, some 1⟩,
        ⟨6, WOStatus.scheduled, some 300, some 360, none, some 1⟩,
        ⟨7, WOStatus.pending, none, none, none, none⟩],
       [⟨1, 6⟩], [⟨1, 0, 1440⟩]⟩ 7 1 400 460
      ⟨7, WOStatus.pending, none, none, none, none⟩ ⟨1, 6⟩
      rfl rfl (by decide) rfl rfl (by decide)⟩

/-! ## Quote conversion pipeline (modelled from the spec)

The server-side `convertQuote` of §4.6 is reached only through the
frontend wrapper (`quotesApi.js`, POST /api/quotes/id/convert); its
implementation is not under src.  The schema's `quotes` table records no
child reference (only `work_orders.quote_id` exists), so the spec's
at-most-one-child reference of §4.6 step 3 is modelled explicitly. -/

/-- Quote status values, from the CHECK constraint on `quotes.status`. -/
inductive QuoteStatus
  | draft
  | sent
  | accepted
  | rejected
  | expired
deriving DecidableEq, Repr

/-- Conversion targets of §4.6. -/
inductive ConvTarget
  | work_order
  | invoice
deriving DecidableEq, Repr

/-- Modelled from the spec: conversion failures (§4.6 preconditions). -/
inductive ConvError
  | notFound
  | alreadyConverted
  | invalidStatus
deriving DecidableEq, Repr

/-- Modelled from the spec: a quote together with its at-most-one
converted child (§3, §4.6 step 3). -/
structure QuoteRec where
  id : Nat
  status : QuoteStatus
  converted_child : Option (ConvTarget × Nat)
deriving DecidableEq, Repr

/-- Modelled from the spec: the conversion pipeline's state — the quotes
and the ids of the entities conversion has created. -/
structure ConvState where
  quotes : List QuoteRec
  work_order_ids : List Nat
  invoice_ids : List Nat
  next_id : Nat
deriving DecidableEq, Repr

/-- Modelled from the spec (§4.6 `convertQuote`): preconditions — the
quote exists, is not already converted and is not terminally
rejected/expired; then, atomically, mark the quote accepted, create the
target entity and record the child reference on the quote. -/
def convertQuote (st : ConvState) (quoteId : Nat) (target : ConvTarget) :
    Except ConvError (ConvState × Nat) :=
  match st.quotes.find? (fun q => q.id = quoteId) with
  | none => Except.error ConvError.notFound
  | some q =>
      if q.converted_child.isSome then
        Except.error ConvError.alreadyConverted
      else if q.status = QuoteStatus.rejected ∨
          q.status = QuoteStatus.expired then
        Except.error ConvError.invalidStatus
      else
        let newId := st.next_id
        let quotes' := st.quotes.map (fun r =>
          if r.id = quoteId then
            { r with
              status := QuoteStatus.accepted
              converted_child := some (target, newId) }
          else r)
        match target with
        | ConvTarget.work_order =>
            Except.ok ({ st with
              quotes := quotes'
              work_order_ids := st.work_order_ids ++ [newId]
              next_id := st.next_id + 1 }, newId)
        | ConvTarget.invoice =>
            Except.ok ({ st with
              quotes := quotes'
              invoice_ids := st.invoice_ids ++ [newId]
              next_id := st.next_id + 1 }, newId)

/-- Searching a mapped list with a predicate the map preserves finds the
image of the original hit. -/
theorem find?_map_of_pred_eq {α : Type} (l : List α) (g : α → α)
    (p : α → Bool) (hpres : ∀ x, p (g x) = p x) :
    (l.map g).find? p = (l.find? p).map g := by
  induction l with
  | nil => rfl
  | cons w t ih =>
      rw [List.map_cons]
      cases hw : p w with
      | true =>
          rw [List.find?_cons_of_pos _ (by rw [hpres]; exact hw),
            List.find?_cons_of_pos _ hw]
          rfl
      | false =>
          rw [List.find?_cons_of_neg _ (by rw [hpres, hw]; exact
              Bool.false_ne_true),
            List.find?_cons_of_neg _ (by rw [hw]; exact Bool.false_ne_true)]
          exact ih

/-- Unfolding a successful conversion: the quote existed unconverted, the
new entity id is the allocated one, and the quote table is rewritten with
the accepted status and the recorded child. -/
theorem convertQuote_ok {st st' : ConvState} {quoteId : Nat}
    {t : ConvTarget} {cid : Nat}
    (h : convertQuote st quoteId t = Except.ok (st', cid)) :
    ∃ q : QuoteRec,
      st.quotes.find? (fun x => x.id = quoteId) = some q ∧
      q.converted_child = none ∧
      cid = st.next_id ∧
      st'.quotes = st.quotes.map (fun r =>
        if r.id = quoteId then
          { r with
            status := QuoteStatus.accepted
            converted_child := some (t, st.next_id) }
        else r) := by
  unfold convertQuote at h
  split at h
  · exact absurd h (by simp)
  · rename_i q hq
    split at h
    · exact absurd h (by simp)
    · rename_i hsome
      split at h
      · exact absurd h (by simp)
      · have hchild : q.converted_child = none := by
          cases hc : q.converted_child with
          | none => rfl
          | some c => rw [hc] at hsome; exact absurd rfl hsome
        cases t with
        | work_order =>
            simp only at h
            injection h with h
            injection h with h1 h2
            exact ⟨q, hq, hchild, h2.symm, by rw [← h1]⟩
        | invoice =>
            simp only at h
            injection h with h
            injection h with h1 h2
            exact ⟨q, hq, hchild, h2.symm, by rw [← h1]⟩

/-- C8: conversion succeeds at most once — after a successful
`convertQuote` the quote carries its single recorded child, and every
subsequent `convertQuote` call on the same quote (for either target)
fails with the already-converted error and creates nothing. -/
theorem C8_convert_at_most_once :
    ∀ (st st' : ConvState) (quoteId : Nat) (t t2 : ConvTarget) (cid : Nat),
    convertQuote st quoteId t = Except.ok (st', cid) →
    (∃ q' ∈ st'.quotes, q'.id = quoteId ∧
        q'.converted_child = some (t, cid)) ∧
    convertQuote st' quoteId t2 = Except.error ConvError.alreadyConverted := by
  intro st st' quoteId t t2 cid hok
  obtain ⟨q, hq, hchild, hcid, hquotes⟩ := convertQuote_ok hok
  have hqid : q.id = quoteId := by simpa using List.find?_some hq
  have hpres : ∀ x : QuoteRec,
      (decide ((if x.id = quoteId then
          { x with
            status := QuoteStatus.accepted
            converted_child := some (t, st.next_id) }
        else x).id = quoteId) : Bool) = decide (x.id = quoteId) := by
    intro x
    by_cases hx : x.id = quoteId
    · rw [if_pos hx]
    · rw [if_neg hx]
  have hfind' : st'.quotes.find? (fun x => x.id = quoteId) =
      some { q with
        status := QuoteStatus.accepted
        converted_child := some (t, st.next_id) } := by
    rw [hquotes, find?_map_of_pred_eq _ _ _ hpres, hq,
      Option.map_some', if_pos hqid]
  constructor
  · refine ⟨{ q with
        status := QuoteStatus.accepted
        converted_child := some (t, st.next_id) },
      List.mem_of_find?_eq_some hfind', hqid, ?_⟩
    rw [hcid]
  · unfold convertQuote
    rw [hfind']
    simp only [Option.isSome_some, if_pos]

/-- Witness for C8: converting quote 1 (status sent) to a work order
succeeds and allocates id 100; a second conversion attempt — now to an
invoice — fails with the already-converted error. -/
theorem C8_convert_at_most_once_witness :
    convertQuote ⟨[⟨1, QuoteStatus.accepted,
        some (ConvTarget.work_order, 100)⟩], [100], [], 101⟩ 1
      ConvTarget.invoice = Except.error ConvError.alreadyConverted :=
  (C8_convert_at_most_once
    ⟨[⟨1, QuoteStatus.sent, none⟩], [], [], 100⟩
    ⟨[⟨1, QuoteStatus.accepted, some (ConvTarget.work_order, 100)⟩],
      [100], [], 101⟩
    1 ConvTarget.work_order ConvTarget.invoice 100 rfl).2

end Idims
